import Mathlib

/-!
Verification development for the wIsper_notes_local repository.

The repository has two coupled subsystems: a transcription/diarization
pipeline (app.py `transcribir_con_diarizacion`, src/audio_processing.py) and
an asynchronous job dispatcher (worker.py) that runs the pipeline in a
subprocess and records job status in a JSON metadata store
(src/file_management.py).  The definitions below are shallow embeddings of
those Python functions; external effects (the subprocess itself, the ML
models, the JSON parser) are modelled as explicit parameters or as small
inductive types of outcomes.
-/

/-! ## String helpers modelling Python string primitives -/

/-- Models Python str.lower character by character (ASCII). -/
def lowerStr (s : String) : String := ⟨s.data.map Char.toLower⟩

/-- Returns true when the first list is an initial run of the second. -/
def leadMatch : List Char → List Char → Bool
  | [], _ => true
  | _ :: _, [] => false
  | a :: as, b :: bs => a == b && leadMatch as bs

/-- Returns true when the first list occurs contiguously inside the second. -/
def hasSubList (needle : List Char) : List Char → Bool
  | [] => needle.isEmpty
  | c :: rest => leadMatch needle (c :: rest) || hasSubList needle rest

/-- Models the Python substring test `sub in s`. -/
def containsSub (s sub : String) : Bool := hasSubList sub.data s.data

/-- Models Python str.strip: remove whitespace from both ends. -/
def pyStrip (s : String) : String :=
  ⟨((s.data.dropWhile Char.isWhitespace).reverse.dropWhile
      Char.isWhitespace).reverse⟩

/-! ## worker.py — the job dispatcher

`run_transcription_process` launches `transcribe_cli.py` in a subprocess and
calls `process.communicate(timeout=600)`.  The subprocess itself is external,
so its behaviour is a parameter: it either terminates after some time with an
exit code, stdout and stderr, or it never terminates. -/

/-- Behaviour of the spawned pipeline subprocess (external to the dispatcher). -/
inductive ProcBehavior where
  | terminates (runtime : ℚ) (code : ℤ) (stdout stderr : String)
  | hangs
deriving DecidableEq

/-- Outcome of `process.communicate(timeout=600)` as seen by the dispatcher. -/
inductive ProcResult where
  | exited (code : ℤ) (stdout stderr : String)
  | timedOut
deriving DecidableEq

/-- Timeout passed to `communicate` in worker.py line 29 (in seconds). -/
def TIMEOUT_SECONDS : ℚ := 600

/-- Models `process.communicate(timeout=600)`: the call returns the streams
when the subprocess exits within the timeout, and raises `TimeoutExpired`
(after which worker.py kills the process) otherwise. -/
def communicateWithTimeout : ProcBehavior → ProcResult
  | .terminates t code out err =>
      if t ≤ TIMEOUT_SECONDS then .exited code out err else .timedOut
  | .hangs => .timedOut

/-- Embeds worker.py `run_transcription_process` from line 26 on: exit code 0
yields `stdout.strip()`; a non-zero exit yields the failure message built from
`stderr.strip()`; `TimeoutExpired` yields the fixed timeout message. -/
def run_transcription_process : ProcResult → String
  | .exited code out err =>
      if code = 0 then pyStrip out
      else "Transcription failed: " ++ pyStrip err
  | .timedOut => "Transcription failed: Process timed out."

/-- Embeds the status computation of worker.py line 77: the job is Completed
exactly when the transcription text contains neither "failed" nor "error"
after lowercasing. -/
def statusFor (transcription : String) : String :=
  if !(containsSub (lowerStr transcription) "failed")
      && !(containsSub (lowerStr transcription) "error") then "Completed"
  else "Failed"

/-- One dispatch of a job, worker.py lines 73 to 79: run the subprocess, then
record the pair of transcription text and status into the metadata store via
`update_transcription_metadata`. -/
def processOutcome (behavior : ProcBehavior) : String × String :=
  let transcription := run_transcription_process (communicateWithTimeout behavior)
  (transcription, statusFor transcription)

/-! ## Device resolution — app.py lines 21 to 22 and audio_processing.py 44 to 46 -/

/-- Embeds `DEVICE = "cuda" if torch.cuda.is_available() else "cpu"`. -/
def DEVICE (cudaAvailable : Bool) : String :=
  if cudaAvailable then "cuda" else "cpu"

/-- Embeds `COMPUTE_TYPE = "float16" if torch.cuda.is_available() else "int8"`. -/
def COMPUTE_TYPE (cudaAvailable : Bool) : String :=
  if cudaAvailable then "float16" else "int8"

/-- Bit width of the numeric formats named by `COMPUTE_TYPE`. -/
def formatBits (fmt : String) : ℕ :=
  if fmt = "float16" then 16 else if fmt = "int8" then 8 else 0

/-- Modelled from the spec: the device policy as the specification describes
it, taking a requested mode and returning a device together with a warning
flag.  No such function exists in the source; it is stated here only to be
compared with the source-level `DEVICE`. -/
def devicePolicySpec (mode : String) (gpuAvailable : Bool) : String × Bool :=
  if mode = "GPU" then
    if gpuAvailable then ("GPU", false) else ("CPU", true)
  else ("CPU", false)

/-! ## Model loading — audio_processing.py lines 48 to 63

The Whisper model is created once, at module top level:
`transcription_model = WhisperModel("base", device=DEVICE, compute_type=COMPUTE_TYPE)`.
Python executes a module body at most once per process and caches the module
object, so a load operation keyed by (model identifier, device) is realized
by the import system together with this module-level global.  The state below
is that per-process module cache. -/

structure LoadedModel where
  modelId : String
  device : String
deriving DecidableEq

/-- Per-process cache entry for the src.audio_processing module: `none` until
the module body has run, afterwards the `transcription_model` global. -/
structure PyProcessState where
  audioProcessingModule : Option LoadedModel
deriving DecidableEq

/-- Models `import src.audio_processing` in one Python process: a cached
module is returned as is; otherwise the module body runs, instantiating
`WhisperModel("base", device=DEVICE, ...)` exactly once.  The third component
counts how many underlying model loads the call triggered. -/
def importAudioProcessing (cudaAvailable : Bool) (st : PyProcessState) :
    LoadedModel × PyProcessState × ℕ :=
  match st.audioProcessingModule with
  | some m => (m, st, 0)
  | none =>
      let m : LoadedModel := ⟨"base", DEVICE cudaAvailable⟩
      (m, ⟨some m⟩, 1)

/-! ## file_management.py `_load_metadata` — the job store loader -/

/-- State of the metadata file on disk. -/
inductive StoreFile where
  | absent
  | present (content : String)
deriving DecidableEq

/-- A parsed metadata store: relative path keys mapped to raw record text. -/
def Metadata := List (String × String)
deriving instance DecidableEq for Metadata

/-- Embeds `_load_metadata` of src/file_management.py lines 12 to 27.  The
JSON parser is external, hence a parameter returning `none` on
`JSONDecodeError`.  The result pairs the returned store with the list of
backup files written: a missing file or an empty file yields the empty store
with no backup; unparseable content yields the empty store after copying the
file to a timestamped .bak name. -/
def load_metadata (parse : String → Option Metadata) (file : StoreFile)
    (timestamp : String) : Metadata × List String :=
  match file with
  | .absent => ([], [])
  | .present c =>
      if c = "" then ([], [])
      else
        match parse c with
        | some m => (m, [])
        | none => ([], ["audio_library/metadata.json.bak_" ++ timestamp])

/-- A parse function that rejects every content, standing for inputs on which
`json.load` raises `JSONDecodeError` (in particular the empty string). -/
def noParse : String → Option Metadata := fun _ => none

/-! ## transcribe_cli.py — the pipeline entry point

Line 4 of transcribe_cli.py is `from src.audio_processing import
transcribe_audio`, executed before `main`.  Python resolves the name against
the top-level bindings of the imported module and raises `ImportError` when
it is absent; an unhandled exception at import time terminates the process
with exit code 1 and nothing on standard output. -/

/-- The names bound at top level of src/src/audio_processing.py, in source
order: the imports of lines 2 to 13, then `convert_audio_to_wav`, the device
constants, the three model globals, the text splitter and
`transcribir_con_diarizacion`.  No `transcribe_audio` is ever defined. -/
def audioProcessingTopLevelNames : List String :=
  ["ffmpeg", "tempfile", "os", "WhisperModel", "gr", "VoiceEncoder", "np",
   "librosa", "DBSCAN", "torch", "SemanticChunker", "HuggingFaceEmbeddings",
   "convert_audio_to_wav", "DEVICE", "COMPUTE_TYPE", "transcription_model",
   "voice_encoder", "embeddings", "text_splitter",
   "transcribir_con_diarizacion"]

/-- Embeds a run of `python transcribe_cli.py <path> --model <name>` as
exit code and standard output.  The import on line 4 succeeds only when
`transcribe_audio` is among the module top-level names; on failure the
interpreter exits with code 1 and empty stdout.  Were the import to succeed,
`main` would exit 1 on a missing file and otherwise print the value returned
by the imported function, which the parameter `transcribeResult` stands for. -/
def runTranscribeCli (audioFileExists : Bool) (modelName : String)
    (transcribeResult : String) : ℤ × String :=
  if "transcribe_audio" ∈ audioProcessingTopLevelNames then
    if audioFileExists then (0, transcribeResult ++ "\n") else (1, "")
  else (1, "")

/-! ## The pipeline — app.py `transcribir_con_diarizacion`, lines 269 to 336

Audio samples are modelled as rationals (their values are only ever passed to
the external voice encoder).  The Whisper transcription step, the voice
encoder and the cosine metric are external models, so they enter as
parameters: `segments` is the list the ASR produced, `embed` is
`voice_encoder.embed_utterance` (`none` models the caught per-segment
exception) and `dist` is the pairwise distance used by DBSCAN. -/

/-- An ASR segment as used by app.py: start and end in seconds plus text. -/
structure Segment where
  start : ℚ
  stop : ℚ
  text : String
deriving DecidableEq

/-- Models the Python `int()` conversion, truncation toward zero. -/
def pyInt (q : ℚ) : ℤ := if q < 0 then ⌈q⌉ else ⌊q⌋

/-- Models the Python slice `l[a:b]` for non-negative bounds. -/
def pySlice (l : List α) (a b : ℤ) : List α :=
  (l.drop a.toNat).take (b - a).toNat

/-- Sample index of a time `t` in seconds, `int(t * sr)` with `sr = 16000`;
the product is written on the numerator so that it evaluates, and
`sampleIndex_eq` below states it equals the textbook form. -/
def sampleIndex (t : ℚ) : ℤ := pyInt (mkRat (t.num * 16000) t.den)

theorem sampleIndex_eq (t : ℚ) : sampleIndex t = pyInt (t * 16000) := by
  unfold sampleIndex
  rw [Rat.mkRat_eq_div]
  push_cast
  rw [mul_comm (t.num : ℚ) 16000, mul_div_assoc, Rat.num_div_den,
    mul_comm (16000 : ℚ) t]

/-- Embeds the embedding-extraction loop of app.py lines 291 to 306: slice
the audio span of each segment at 16 kHz, skip spans shorter than 400
samples, skip spans on which the encoder raises, and collect the embeddings
together with the surviving segments, both in original order. -/
def extractLoop (embed : List ℚ → Option (List ℚ)) (wav : List ℚ) :
    List Segment → List (List ℚ) × List Segment
  | [] => ([], [])
  | seg :: rest =>
      let segment_wav :=
        pySlice wav (sampleIndex seg.start) (sampleIndex seg.stop)
      if segment_wav.length < 400 then extractLoop embed wav rest
      else
        match embed segment_wav with
        | some emb =>
            let r := extractLoop embed wav rest
            (emb :: r.1, seg :: r.2)
        | none => extractLoop embed wav rest

/-- Models the Python join `" ".join(texts)`. -/
def joinSpace : List String → String
  | [] => ""
  | [s] => s
  | s :: rest => s ++ " " ++ joinSpace rest

/-! ## DBSCAN — the external clustering called at app.py line 313

The source calls `DBSCAN(eps=0.5, min_samples=1, metric="cosine")`.  The
clusterer is a library, modelled here by the standard DBSCAN algorithm:
labels start unvisited (`none`); a scan over all points labels each unvisited
point as noise (`some (-1)`) when its eps-neighborhood is smaller than
`minPts` and otherwise starts a new cluster and expands it through
density-reachable points.  The expansion carries fuel; exhausting fuel can
only leave points for a later cluster of the outer scan, never unlabel one. -/

/-- Indices of the points whose distance to `p` is at most `eps`. -/
def regionQuery (dist : α → α → ℚ) (eps : ℚ) (pts : List α) (p : α) :
    List ℕ :=
  (List.range pts.length).filter fun j =>
    match pts.get? j with
    | some q => decide (dist q p ≤ eps)
    | none => false

/-- Expansion step of DBSCAN: pop a seed index, claim it for cluster `c` when
it is unvisited or noise, and enqueue its neighborhood when it is itself a
core point. -/
def expandCluster (dist : α → α → ℚ) (eps : ℚ) (minPts : ℕ) (pts : List α) :
    ℕ → List ℕ → ℤ → List (Option ℤ) → List (Option ℤ)
  | 0, _, _, labels => labels
  | _ + 1, [], _, labels => labels
  | fuel + 1, q :: seeds, c, labels =>
      match pts.get? q, labels.get? q with
      | some pq, some none =>
          let labels' := labels.set q (some c)
          let qn := regionQuery dist eps pts pq
          if minPts ≤ qn.length then
            expandCluster dist eps minPts pts fuel (seeds ++ qn) c labels'
          else
            expandCluster dist eps minPts pts fuel seeds c labels'
      | some _, some (some l) =>
          if l = -1 then
            expandCluster dist eps minPts pts fuel seeds c (labels.set q (some c))
          else expandCluster dist eps minPts pts fuel seeds c labels
      | _, _ => expandCluster dist eps minPts pts fuel seeds c labels

/-- Outer scan of DBSCAN over the point indices. -/
def dbscanLoop (dist : α → α → ℚ) (eps : ℚ) (minPts : ℕ) (pts : List α)
    (fuel : ℕ) : List ℕ → ℤ → List (Option ℤ) → List (Option ℤ)
  | [], _, labels => labels
  | i :: rest, c, labels =>
      match pts.get? i, labels.get? i with
      | some p, some none =>
          let neighbors := regionQuery dist eps pts p
          if neighbors.length < minPts then
            dbscanLoop dist eps minPts pts fuel rest c (labels.set i (some (-1)))
          else
            let labels' :=
              expandCluster dist eps minPts pts fuel neighbors c
                (labels.set i (some c))
            dbscanLoop dist eps minPts pts fuel rest (c + 1) labels'
      | _, _ => dbscanLoop dist eps minPts pts fuel rest c labels

/-- DBSCAN over a list of points: one integer label per point, `-1` standing
for noise, cluster identifiers counted from 0. -/
def dbscan (dist : α → α → ℚ) (eps : ℚ) (minPts : ℕ) (pts : List α) :
    List ℤ :=
  let n := pts.length
  (dbscanLoop dist eps minPts pts (n * n + n + 1) (List.range n) 0
      (List.replicate n none)).map fun o => o.getD (-1)

/-! ## Transcript assembly — app.py lines 316 to 336

The loop keeps `transcripcion`, `current_speaker_label` (initially -1) and
`current_text`; on a label change with a real current speaker it appends the
closed block and resets the accumulator, and after the loop it flushes the
final open block.  Note the source f-string ends in two escaped backslash-n
pairs, so the separator is the literal two-character text backslash-n twice,
not newlines. -/

/-- Renders one closed block exactly as app.py lines 325 to 326 append it. -/
def renderBlock (b : ℤ × String) : String :=
  "**Hablante " ++ toString (b.1 + 1) ++ ":** " ++ pyStrip b.2 ++ "\\n\\n"

/-- Embeds the assembly loop of app.py lines 316 to 334, building the output
string; arguments after the pair list are the loop state `transcripcion`,
`current_speaker_label` and `current_text`. -/
def buildTranscripcion : List (Segment × ℤ) → String → ℤ → String → String
  | [], transcripcion, currentLabel, currentText =>
      if currentLabel ≠ -1 then
        transcripcion ++ renderBlock (currentLabel, currentText)
      else transcripcion
  | p :: rest, transcripcion, currentLabel, currentText =>
      if p.2 ≠ currentLabel ∧ currentLabel ≠ -1 then
        buildTranscripcion rest
          (transcripcion ++ renderBlock (currentLabel, currentText))
          p.2 (" " ++ p.1.text)
      else
        buildTranscripcion rest transcripcion p.2 (currentText ++ " " ++ p.1.text)

/-- The same loop recorded as a block list instead of a rendered string: each
closed or flushed block keeps its label and raw accumulated text. -/
def buildBlocks : List (Segment × ℤ) → List (ℤ × String) → ℤ → String →
    List (ℤ × String)
  | [], blocks, currentLabel, currentText =>
      if currentLabel ≠ -1 then blocks ++ [(currentLabel, currentText)]
      else blocks
  | p :: rest, blocks, currentLabel, currentText =>
      if p.2 ≠ currentLabel ∧ currentLabel ≠ -1 then
        buildBlocks rest (blocks ++ [(currentLabel, currentText)])
          p.2 (" " ++ p.1.text)
      else
        buildBlocks rest blocks p.2 (currentText ++ " " ++ p.1.text)

/-- Concatenated rendering of a block list. -/
def renderBlocks : List (ℤ × String) → String
  | [] => ""
  | b :: bs => renderBlock b ++ renderBlocks bs

/-- Concatenation of the raw accumulated texts of a block list. -/
def blockTexts : List (ℤ × String) → String
  | [] => ""
  | b :: bs => b.2 ++ blockTexts bs

/-- Concatenation of segment texts the way the loop accumulates them: every
segment contributes one leading space and then its text. -/
def segTexts : List Segment → String
  | [] => ""
  | s :: rest => " " ++ s.text ++ segTexts rest

/-- Modelled from the spec: grouping of labeled segments into maximal runs of
equal labels, the reference description of section 4.7 of the spec, stated
to be compared with the source-level loop. -/
def runsAux (l : ℤ) (txt : String) : List (Segment × ℤ) → List (ℤ × String)
  | [] => [(l, txt)]
  | p :: rest =>
      if p.2 = l then runsAux l (txt ++ " " ++ p.1.text) rest
      else (l, txt) :: runsAux p.2 (" " ++ p.1.text) rest

/-- Modelled from the spec: maximal equal-label runs of a labeled segment
list, each paired with its accumulated text. -/
def runs : List (Segment × ℤ) → List (ℤ × String)
  | [] => []
  | p :: rest => runsAux p.2 (" " ++ p.1.text) rest

/-- Embeds app.py `transcribir_con_diarizacion` from the transcription step
on (lines 284 to 336): an empty segment list short-circuits to the terminal
no-speech result; when every segment fails the guard or the encoder, the
plain joined text is returned; otherwise the embeddings are clustered by
DBSCAN with eps one half and min_samples 1 and the assembly loop formats the
labeled valid segments. -/
def transcribir_con_diarizacion (embed : List ℚ → Option (List ℚ))
    (dist : List ℚ → List ℚ → ℚ) (wav : List ℚ) (audio_path : String)
    (segments : List Segment) : String × Option String :=
  if segments = [] then
    ("No se pudo transcribir el audio (posiblemente silencio).", some audio_path)
  else
    let er := extractLoop embed wav segments
    if er.2 = [] then (joinSpace (segments.map Segment.text), some audio_path)
    else
      let labels := dbscan dist (mkRat 1 2) 1 er.1
      (pyStrip (buildTranscripcion (er.2.zip labels) "" (-1) ""), some audio_path)

/-! ## Helper lemmas about the string primitives -/

theorem string_data_append (a b : String) : (a ++ b).data = a.data ++ b.data := rfl

theorem leadMatch_append (n l l' : List Char) (h : leadMatch n l = true) :
    leadMatch n (l ++ l') = true := by
  induction n generalizing l with
  | nil => simp [leadMatch]
  | cons a as ih =>
      cases l with
      | nil => simp [leadMatch] at h
      | cons b bs =>
          simp only [leadMatch, Bool.and_eq_true] at h
          simp only [List.cons_append, leadMatch, Bool.and_eq_true]
          exact ⟨h.1, ih bs h.2⟩

theorem hasSubList_nil_needle (l : List Char) : hasSubList [] l = true := by
  induction l with
  | nil => rfl
  | cons c rest ih => simp [hasSubList, leadMatch]

theorem hasSubList_append_left (n l l' : List Char) (h : hasSubList n l = true) :
    hasSubList n (l ++ l') = true := by
  induction l with
  | nil =>
      simp only [hasSubList, List.isEmpty_iff] at h
      subst h
      simpa using hasSubList_nil_needle l'
  | cons c rest ih =>
      simp only [hasSubList, Bool.or_eq_true] at h
      simp only [List.cons_append, hasSubList, Bool.or_eq_true]
      rcases h with h | h
      · exact Or.inl (leadMatch_append n (c :: rest) l' h)
      · exact Or.inr (ih h)

theorem statusFor_failed_left (e : String) :
    statusFor ("Transcription failed: " ++ e) = "Failed" := by
  have h1 : containsSub (lowerStr ("Transcription failed: " ++ e)) "failed" = true := by
    unfold containsSub lowerStr
    rw [string_data_append, List.map_append]
    exact hasSubList_append_left _ _ _ (by decide)
  unfold statusFor
  rw [h1]
  simp

/-! ## Helper lemmas about transcript assembly -/

theorem renderBlocks_append (a b : List (ℤ × String)) :
    renderBlocks (a ++ b) = renderBlocks a ++ renderBlocks b := by
  induction a with
  | nil => simp [renderBlocks, String.empty_append]
  | cons x xs ih => simp [renderBlocks, ih, String.append_assoc]

theorem blockTexts_append (a b : List (ℤ × String)) :
    blockTexts (a ++ b) = blockTexts a ++ blockTexts b := by
  induction a with
  | nil => simp [blockTexts, String.empty_append]
  | cons x xs ih => simp [blockTexts, ih, String.append_assoc]

theorem buildBlocks_acc (pairs : List (Segment × ℤ)) :
    ∀ (bs : List (ℤ × String)) (l : ℤ) (txt : String),
    buildBlocks pairs bs l txt = bs ++ buildBlocks pairs [] l txt := by
  induction pairs with
  | nil =>
      intro bs l txt
      by_cases h : l ≠ -1 <;> simp [buildBlocks, h]
  | cons p rest ih =>
      intro bs l txt
      by_cases h : p.2 ≠ l ∧ l ≠ -1
      · simp only [buildBlocks, if_pos h, List.nil_append]
        rw [ih (bs ++ [(l, txt)]), ih [(l, txt)], ← List.append_assoc]
      · simp only [buildBlocks, if_neg h]
        exact ih bs p.2 (txt ++ " " ++ p.1.text)

theorem buildTranscripcion_renders (pairs : List (Segment × ℤ)) :
    ∀ (t : String) (l : ℤ) (txt : String),
    buildTranscripcion pairs t l txt
      = t ++ renderBlocks (buildBlocks pairs [] l txt) := by
  induction pairs with
  | nil =>
      intro t l txt
      by_cases h : l ≠ -1 <;>
        simp [buildTranscripcion, buildBlocks, renderBlocks, h,
          String.append_empty]
  | cons p rest ih =>
      intro t l txt
      by_cases h : p.2 ≠ l ∧ l ≠ -1
      · simp only [buildTranscripcion, buildBlocks, if_pos h, List.nil_append]
        rw [ih, buildBlocks_acc rest [(l, txt)], renderBlocks_append]
        simp [renderBlocks, String.append_assoc, String.append_empty]
      · simp only [buildTranscripcion, buildBlocks, if_neg h]
        exact ih t p.2 (txt ++ " " ++ p.1.text)

theorem blockTexts_buildBlocks (pairs : List (Segment × ℤ))
    (h : ∀ p ∈ pairs, p.2 ≠ -1) :
    ∀ (l : ℤ) (txt : String), l ≠ -1 →
    blockTexts (buildBlocks pairs [] l txt)
      = txt ++ segTexts (pairs.map Prod.fst) := by
  induction pairs with
  | nil =>
      intro l txt hl
      simp [buildBlocks, hl, blockTexts, segTexts, String.append_empty]
  | cons p rest ih =>
      intro l txt hl
      have hrest : ∀ q ∈ rest, q.2 ≠ -1 := fun q hq => h q (List.mem_cons_of_mem p hq)
      have hp : p.2 ≠ -1 := h p (List.mem_cons_self p rest)
      by_cases hc : p.2 ≠ l ∧ l ≠ -1
      · simp only [buildBlocks, if_pos hc, List.nil_append]
        rw [buildBlocks_acc rest [(l, txt)], blockTexts_append,
          ih hrest p.2 (" " ++ p.1.text) hp]
        simp [blockTexts, segTexts, String.append_assoc, String.append_empty]
      · simp only [buildBlocks, if_neg hc]
        rw [ih hrest p.2 (txt ++ " " ++ p.1.text) hp]
        simp [segTexts, String.append_assoc]

theorem blockTexts_partition (pairs : List (Segment × ℤ))
    (h : ∀ p ∈ pairs, p.2 ≠ -1) :
    blockTexts (buildBlocks pairs [] (-1) "")
      = segTexts (pairs.map Prod.fst) := by
  cases pairs with
  | nil => rfl
  | cons p rest =>
      have hrest : ∀ q ∈ rest, q.2 ≠ -1 := fun q hq => h q (List.mem_cons_of_mem p hq)
      have hp : p.2 ≠ -1 := h p (List.mem_cons_self p rest)
      have hc : ¬(p.2 ≠ (-1 : ℤ) ∧ (-1 : ℤ) ≠ -1) := by
        rintro ⟨-, hcon⟩; exact hcon rfl
      simp only [buildBlocks, if_neg hc]
      rw [blockTexts_buildBlocks rest hrest p.2 ("" ++ " " ++ p.1.text) hp]
      simp [segTexts, String.empty_append, String.append_assoc]

theorem buildBlocks_eq_runsAux (pairs : List (Segment × ℤ))
    (h : ∀ p ∈ pairs, p.2 ≠ -1) :
    ∀ (l : ℤ) (txt : String), l ≠ -1 →
    buildBlocks pairs [] l txt = runsAux l txt pairs := by
  induction pairs with
  | nil => intro l txt hl; simp [buildBlocks, hl, runsAux]
  | cons p rest ih =>
      intro l txt hl
      have hrest : ∀ q ∈ rest, q.2 ≠ -1 := fun q hq => h q (List.mem_cons_of_mem p hq)
      have hp : p.2 ≠ -1 := h p (List.mem_cons_self p rest)
      by_cases he : p.2 = l
      · have hc : ¬(p.2 ≠ l ∧ l ≠ -1) := by rintro ⟨hcon, -⟩; exact hcon he
        simp only [buildBlocks, if_neg hc, runsAux, if_pos he]
        subst he
        exact ih hrest p.2 (txt ++ " " ++ p.1.text) hl
      · have hc : p.2 ≠ l ∧ l ≠ -1 := ⟨he, hl⟩
        simp only [buildBlocks, if_pos hc, runsAux, if_neg he, List.nil_append]
        rw [buildBlocks_acc rest [(l, txt)], ih hrest p.2 (" " ++ p.1.text) hp]
        simp

theorem buildBlocks_eq_runs (pairs : List (Segment × ℤ))
    (h : ∀ p ∈ pairs, p.2 ≠ -1) :
    buildBlocks pairs [] (-1) "" = runs pairs := by
  cases pairs with
  | nil => rfl
  | cons p rest =>
      have hrest : ∀ q ∈ rest, q.2 ≠ -1 := fun q hq => h q (List.mem_cons_of_mem p hq)
      have hp : p.2 ≠ -1 := h p (List.mem_cons_self p rest)
      have hc : ¬(p.2 ≠ (-1 : ℤ) ∧ (-1 : ℤ) ≠ -1) := by
        rintro ⟨-, hcon⟩; exact hcon rfl
      simp only [buildBlocks, if_neg hc, runs]
      have : ("" : String) ++ " " ++ p.1.text = " " ++ p.1.text := by
        rw [String.empty_append]
      rw [this]
      exact buildBlocks_eq_runsAux rest hrest p.2 (" " ++ p.1.text) hp

/-! ## Helper lemmas about DBSCAN -/

/-- Invariant of a label state: no point ever carries a negative label, in
particular none has been marked noise. -/
def GoodLabels (ls : List (Option ℤ)) : Prop :=
  ∀ j l, ls.get? j = some (some l) → 0 ≤ l

/-- A point index that has received a definite label. -/
def DoneAt (ls : List (Option ℤ)) (j : ℕ) : Prop :=
  ∃ l, ls.get? j = some (some l)

theorem goodLabels_set (ls : List (Option ℤ)) (q : ℕ) (c : ℤ) (hc : 0 ≤ c)
    (hg : GoodLabels ls) : GoodLabels (ls.set q (some c)) := by
  intro j l hl
  by_cases hj : q = j
  · subst hj
    rw [List.get?_set_eq] at hl
    cases hq : ls.get? q with
    | none => rw [hq] at hl; simp at hl
    | some v => rw [hq] at hl; simp at hl; omega
  · rw [List.get?_set_ne _ _ hj] at hl
    exact hg j l hl

theorem doneAt_set (ls : List (Option ℤ)) (q : ℕ) (c : ℤ) (j : ℕ)
    (hd : DoneAt ls j) : DoneAt (ls.set q (some c)) j := by
  obtain ⟨l, hl⟩ := hd
  by_cases hj : q = j
  · subst hj
    refine ⟨c, ?_⟩
    rw [List.get?_set_eq, hl]
    rfl
  · exact ⟨l, by rw [List.get?_set_ne _ _ hj]; exact hl⟩


theorem expandCluster_facts (dist : α → α → ℚ) (eps : ℚ) (minPts : ℕ)
    (pts : List α) (c : ℤ) (hc : 0 ≤ c) :
    ∀ (fuel : ℕ) (seeds : List ℕ) (ls : List (Option ℤ)), GoodLabels ls →
      (expandCluster dist eps minPts pts fuel seeds c ls).length = ls.length
    ∧ GoodLabels (expandCluster dist eps minPts pts fuel seeds c ls)
    ∧ ∀ j, DoneAt ls j →
        DoneAt (expandCluster dist eps minPts pts fuel seeds c ls) j := by
  intro fuel
  induction fuel with
  | zero =>
      intro seeds ls hg
      exact ⟨rfl, hg, fun j h => h⟩
  | succ n ih =>
      intro seeds ls hg
      cases seeds with
      | nil => exact ⟨rfl, hg, fun j h => h⟩
      | cons q qs =>
          rcases hp : pts.get? q with _ | pq
          · simp only [expandCluster, hp]
            exact ih qs ls hg
          · rcases hl : ls.get? q with _ | v
            · simp only [expandCluster, hp, hl]
              exact ih qs ls hg
            · cases v with
              | none =>
                  simp only [expandCluster, hp, hl]
                  have hg' := goodLabels_set ls q c hc hg
                  by_cases hq : minPts ≤ (regionQuery dist eps pts pq).length
                  · rw [if_pos hq]
                    obtain ⟨h1, h2, h3⟩ :=
                      ih (qs ++ regionQuery dist eps pts pq) (ls.set q (some c)) hg'
                    refine ⟨?_, h2, ?_⟩
                    · rw [h1, List.length_set]
                    · intro j hj
                      exact h3 j (doneAt_set ls q c j hj)
                  · rw [if_neg hq]
                    obtain ⟨h1, h2, h3⟩ := ih qs (ls.set q (some c)) hg'
                    refine ⟨?_, h2, ?_⟩
                    · rw [h1, List.length_set]
                    · intro j hj
                      exact h3 j (doneAt_set ls q c j hj)
              | some lv =>
                  simp only [expandCluster, hp, hl]
                  have hlv : lv ≠ -1 := by
                    have := hg q lv hl
                    omega
                  rw [if_neg hlv]
                  exact ih qs ls hg

theorem expandCluster_length (dist : α → α → ℚ) (eps : ℚ) (minPts : ℕ)
    (pts : List α) :
    ∀ (fuel : ℕ) (seeds : List ℕ) (c : ℤ) (ls : List (Option ℤ)),
    (expandCluster dist eps minPts pts fuel seeds c ls).length = ls.length := by
  intro fuel
  induction fuel with
  | zero => intro seeds c ls; rfl
  | succ n ih =>
      intro seeds c ls
      cases seeds with
      | nil => rfl
      | cons q qs =>
          rcases hp : pts.get? q with _ | pq
          · simp only [expandCluster, hp]; exact ih qs c ls
          · rcases hl : ls.get? q with _ | v
            · simp only [expandCluster, hp, hl]; exact ih qs c ls
            · cases v with
              | none =>
                  simp only [expandCluster, hp, hl]
                  by_cases hq : minPts ≤ (regionQuery dist eps pts pq).length
                  · rw [if_pos hq, ih, List.length_set]
                  · rw [if_neg hq, ih, List.length_set]
              | some lv =>
                  simp only [expandCluster, hp, hl]
                  by_cases he : lv = -1
                  · rw [if_pos he, ih, List.length_set]
                  · rw [if_neg he]; exact ih qs c ls

theorem dbscanLoop_length (dist : α → α → ℚ) (eps : ℚ) (minPts : ℕ)
    (pts : List α) (fuel : ℕ) :
    ∀ (idxs : List ℕ) (c : ℤ) (ls : List (Option ℤ)),
    (dbscanLoop dist eps minPts pts fuel idxs c ls).length = ls.length := by
  intro idxs
  induction idxs with
  | nil => intro c ls; rfl
  | cons i rest ih =>
      intro c ls
      rcases hp : pts.get? i with _ | p
      · simp only [dbscanLoop, hp]; exact ih c ls
      · rcases hl : ls.get? i with _ | v
        · simp only [dbscanLoop, hp, hl]; exact ih c ls
        · cases v with
          | none =>
              simp only [dbscanLoop, hp, hl]
              by_cases hq : (regionQuery dist eps pts p).length < minPts
              · rw [if_pos hq, ih, List.length_set]
              · rw [if_neg hq, ih, expandCluster_length, List.length_set]
          | some lv =>
              simp only [dbscanLoop, hp, hl]; exact ih c ls

theorem dbscan_length (dist : α → α → ℚ) (eps : ℚ) (minPts : ℕ)
    (pts : List α) :
    (dbscan dist eps minPts pts).length = pts.length := by
  simp only [dbscan, List.length_map]
  rw [dbscanLoop_length, List.length_replicate]

theorem mem_regionQuery_self (dist : α → α → ℚ) (eps : ℚ) (pts : List α)
    (i : ℕ) (p : α) (hp : pts.get? i = some p) (hd : dist p p ≤ eps) :
    i ∈ regionQuery dist eps pts p := by
  unfold regionQuery
  rw [List.mem_filter]
  constructor
  · rcases List.get?_eq_some.mp hp with ⟨h, -⟩
    exact List.mem_range.mpr h
  · show (match pts.get? i with
      | some q => decide (dist q p ≤ eps)
      | none => false) = true
    rw [hp]
    exact decide_eq_true hd

theorem dbscanLoop_facts (dist : α → α → ℚ) (eps : ℚ) (pts : List α)
    (fuel : ℕ) (hdist : ∀ p ∈ pts, dist p p ≤ eps) :
    ∀ (idxs : List ℕ) (c : ℤ) (ls : List (Option ℤ)),
      0 ≤ c → ls.length = pts.length → GoodLabels ls →
      (∀ j ∈ idxs, j < pts.length) →
      GoodLabels (dbscanLoop dist eps 1 pts fuel idxs c ls)
    ∧ (∀ j, DoneAt ls j → DoneAt (dbscanLoop dist eps 1 pts fuel idxs c ls) j)
    ∧ (∀ j ∈ idxs, DoneAt (dbscanLoop dist eps 1 pts fuel idxs c ls) j) := by
  intro idxs
  induction idxs with
  | nil =>
      intro c ls hc hlen hg hidx
      exact ⟨hg, fun j h => h, fun j hj => absurd hj (List.not_mem_nil j)⟩
  | cons i rest ih =>
      intro c ls hc hlen hg hidx
      have hi : i < pts.length := hidx i (List.mem_cons_self i rest)
      have hrest : ∀ j ∈ rest, j < pts.length :=
        fun j hj => hidx j (List.mem_cons_of_mem i hj)
      obtain ⟨p, hp⟩ : ∃ p, pts.get? i = some p :=
        ⟨_, List.get?_eq_get hi⟩
      rcases hl : ls.get? i with _ | v
      · exfalso
        have := List.get?_eq_none.mp hl
        omega
      · cases v with
        | none =>
            simp only [dbscanLoop, hp, hl]
            have hmem : i ∈ regionQuery dist eps pts p :=
              mem_regionQuery_self dist eps pts i p hp (hdist p (List.get?_mem hp))
            have hne : ¬((regionQuery dist eps pts p).length < 1) := by
              have : 0 < (regionQuery dist eps pts p).length :=
                List.length_pos.mpr (List.ne_nil_of_mem hmem)
              omega
            rw [if_neg hne]
            have hgset := goodLabels_set ls i c hc hg
            obtain ⟨e1, e2, e3⟩ :=
              expandCluster_facts dist eps 1 pts c hc fuel
                (regionQuery dist eps pts p) (ls.set i (some c)) hgset
            obtain ⟨g1, g2, g3⟩ :=
              ih (c + 1)
                (expandCluster dist eps 1 pts fuel (regionQuery dist eps pts p) c
                  (ls.set i (some c)))
                (by omega) (by rw [e1, List.length_set]; exact hlen) e2 hrest
            refine ⟨g1, ?_, ?_⟩
            · intro j hj
              exact g2 j (e3 j (doneAt_set ls i c j hj))
            · intro j hj
              rcases List.mem_cons.mp hj with rfl | hj'
              · refine g2 j (e3 j ⟨c, ?_⟩)
                rw [List.get?_set_eq, hl]
                rfl
              · exact g3 j hj'
        | some lv =>
            simp only [dbscanLoop, hp, hl]
            obtain ⟨g1, g2, g3⟩ := ih c ls hc hlen hg hrest
            refine ⟨g1, g2, ?_⟩
            intro j hj
            rcases List.mem_cons.mp hj with rfl | hj'
            · exact g2 j ⟨lv, hl⟩
            · exact g3 j hj'

theorem goodLabels_replicate (n : ℕ) : GoodLabels (List.replicate n none) := by
  intro j l hl
  rw [List.get?_eq_getElem?, List.getElem?_replicate] at hl
  split at hl <;> simp at hl

theorem dbscan_min1_nonneg (dist : α → α → ℚ) (eps : ℚ) (pts : List α)
    (hdist : ∀ p ∈ pts, dist p p ≤ eps) :
    ∀ l ∈ dbscan dist eps 1 pts, 0 ≤ l := by
  intro l hl
  simp only [dbscan] at hl
  obtain ⟨o, ho, rfl⟩ := List.mem_map.mp hl
  obtain ⟨j, hj⟩ := List.mem_iff_get?.mp ho
  obtain ⟨g1, g2, g3⟩ :=
    dbscanLoop_facts dist eps pts
      (pts.length * pts.length + pts.length + 1) hdist
      (List.range pts.length) 0 (List.replicate pts.length none) le_rfl
      (List.length_replicate _ _) (goodLabels_replicate _)
      (fun j hj => List.mem_range.mp hj)
  have hjlen : j <
      (dbscanLoop dist eps 1 pts (pts.length * pts.length + pts.length + 1)
        (List.range pts.length) 0 (List.replicate pts.length none)).length := by
    rcases List.get?_eq_some.mp hj with ⟨h, -⟩
    exact h
  have hrlen :
      (dbscanLoop dist eps 1 pts (pts.length * pts.length + pts.length + 1)
        (List.range pts.length) 0 (List.replicate pts.length none)).length
        = pts.length := by
    rw [dbscanLoop_length, List.length_replicate]
  obtain ⟨l', hl'⟩ := g3 j (List.mem_range.mpr (by omega))
  rw [hj] at hl'
  have : o = some l' := by injection hl'
  subst this
  simpa using g1 j l' hj

/-! ## Remaining helper lemmas -/

theorem extractLoop_lengths (embed : List ℚ → Option (List ℚ)) (wav : List ℚ) :
    ∀ segs, (extractLoop embed wav segs).1.length
      = (extractLoop embed wav segs).2.length := by
  intro segs
  induction segs with
  | nil => rfl
  | cons seg rest ih =>
      simp only [extractLoop]
      by_cases hg :
          (pySlice wav (sampleIndex seg.start) (sampleIndex seg.stop)).length < 400
      · rw [if_pos hg]; exact ih
      · rw [if_neg hg]
        rcases he :
            embed (pySlice wav (sampleIndex seg.start) (sampleIndex seg.stop)) with
          _ | emb
        · simp only [he]; exact ih
        · simp only [he, List.length_cons]; rw [ih]

theorem statusFor_eq_completed_iff (s : String) :
    statusFor s = "Completed" ↔
      containsSub (lowerStr s) "failed" = false
      ∧ containsSub (lowerStr s) "error" = false := by
  have hne : ("Failed" : String) ≠ "Completed" := by decide
  cases hb1 : containsSub (lowerStr s) "failed" <;>
    cases hb2 : containsSub (lowerStr s) "error" <;>
      simp [statusFor, hb1, hb2, hne]

/-! ## Concrete inputs used by witnesses and counterexamples -/

/-- A 500-sample audio buffer (31.25 ms at 16 kHz). -/
def exWav : List ℚ := List.replicate 500 0

/-- A segment of 100 samples, below the 400-sample diarization guard. -/
def exSegShort : Segment := ⟨0, mkRat 1 160, "marcador"⟩

/-- A segment of 400 samples, passing the diarization guard. -/
def exSegLong : Segment := ⟨mkRat 1 160, mkRat 1 32, "hola"⟩

/-- A voice encoder standing in for resemblyzer: constant embedding. -/
def exEmbed : List ℚ → Option (List ℚ) := fun _ => some [0]

/-- A distance function standing in for the cosine metric: identically zero,
so it satisfies the reflexivity bound the cosine distance satisfies. -/
def exDist : List ℚ → List ℚ → ℚ := fun _ _ => 0

/-- Three labeled segments forming two speaker runs. -/
def exPairs : List (Segment × ℤ) :=
  [(⟨0, 1, "uno"⟩, 0), (⟨1, 2, "dos"⟩, 0), (⟨2, 3, "tres"⟩, 1)]

/-! ## Claim theorems -/

/-- C1 (amended): for a subprocess that exits within the timeout, the worker
records the stripped stdout as the transcript when the exit code is 0, but
the status is Completed only when that text contains neither "failed" nor
"error" after lowercasing; a non-zero exit is always recorded as Failed with
the message built from the captured stderr. -/
theorem worker_exit_recording (t : ℚ) (code : ℤ) (out err : String)
    (ht : t ≤ TIMEOUT_SECONDS) :
    (code = 0 →
      (processOutcome (.terminates t code out err)).1 = pyStrip out
      ∧ ((processOutcome (.terminates t code out err)).2 = "Completed"
          ↔ containsSub (lowerStr (pyStrip out)) "failed" = false
            ∧ containsSub (lowerStr (pyStrip out)) "error" = false))
  ∧ (code ≠ 0 →
      processOutcome (.terminates t code out err)
        = ("Transcription failed: " ++ pyStrip err, "Failed")) := by
  have hcomm : communicateWithTimeout (.terminates t code out err)
      = .exited code out err := by
    simp [communicateWithTimeout, ht]
  constructor
  · intro h0
    subst h0
    have h1 : (processOutcome (.terminates t 0 out err)).1 = pyStrip out := by
      simp [processOutcome, hcomm, run_transcription_process]
    have h2 : (processOutcome (.terminates t 0 out err)).2
        = statusFor (pyStrip out) := by
      simp [processOutcome, hcomm, run_transcription_process]
    exact ⟨h1, by rw [h2, statusFor_eq_completed_iff]⟩
  · intro hne0
    have h1 : processOutcome (.terminates t code out err)
        = ("Transcription failed: " ++ pyStrip err,
           statusFor ("Transcription failed: " ++ pyStrip err)) := by
      simp [processOutcome, hcomm, run_transcription_process, hne0]
    rw [h1, statusFor_failed_left]

/-- Witness for C1 at a concrete non-zero exit. -/
theorem worker_exit_recording_witness :
    processOutcome (ProcBehavior.terminates 0 1 "" "boom")
      = ("Transcription failed: boom", "Failed") := by
  have h := (worker_exit_recording 0 1 "" "boom" (by decide)).2 (by decide)
  rw [h]
  decide

/-- C1 counterexample: a subprocess that exits normally with code 0 and the
transcript text "error" on stdout is recorded as Failed, not Completed as
the claim states. -/
theorem worker_exit0_marked_failed :
    processOutcome (ProcBehavior.terminates 1 0 "error" "") = ("error", "Failed")
  ∧ ("Failed" : String) ≠ "Completed" := by decide

/-- C2 (amended): on every pipeline run with detected speech and at least one
guard-passing segment, the final output renders the blocks built from the
valid segments and their DBSCAN labels, and those blocks partition the valid
segment sequence in original order: the concatenation of block texts equals
the concatenation of the valid segment texts.  Segments excluded by the
400-sample guard are absent from the output (see the counterexample). -/
theorem pipeline_blocks_partition (embed : List ℚ → Option (List ℚ))
    (dist : List ℚ → List ℚ → ℚ) (wav : List ℚ) (audio_path : String)
    (segments : List Segment)
    (hdist : ∀ p, dist p p ≤ mkRat 1 2)
    (hseg : segments ≠ [])
    (hvalid : (extractLoop embed wav segments).2 ≠ []) :
    (transcribir_con_diarizacion embed dist wav audio_path segments).1
      = pyStrip (renderBlocks (buildBlocks
          ((extractLoop embed wav segments).2.zip
            (dbscan dist (mkRat 1 2) 1 (extractLoop embed wav segments).1))
          [] (-1) ""))
  ∧ blockTexts (buildBlocks
        ((extractLoop embed wav segments).2.zip
          (dbscan dist (mkRat 1 2) 1 (extractLoop embed wav segments).1))
        [] (-1) "")
      = segTexts (extractLoop embed wav segments).2 := by
  have hlabels : ∀ l ∈ dbscan dist (mkRat 1 2) 1 (extractLoop embed wav segments).1,
      0 ≤ l :=
    dbscan_min1_nonneg _ _ _ (fun p _ => hdist p)
  have hpairs : ∀ p ∈ (extractLoop embed wav segments).2.zip
      (dbscan dist (mkRat 1 2) 1 (extractLoop embed wav segments).1),
      p.2 ≠ (-1 : ℤ) := by
    rintro ⟨s, l⟩ hp
    have hl := hlabels l (List.of_mem_zip hp).2
    omega
  constructor
  · simp only [transcribir_con_diarizacion, if_neg hseg, if_neg hvalid]
    rw [buildTranscripcion_renders, String.empty_append]
  · rw [blockTexts_partition _ hpairs, List.map_fst_zip]
    rw [dbscan_length, extractLoop_lengths]

set_option maxRecDepth 20000 in
/-- Witness for C2 at a concrete pipeline run with one guard-failing and one
guard-passing segment. -/
theorem pipeline_blocks_partition_witness :
    blockTexts (buildBlocks
        ((extractLoop exEmbed exWav [exSegShort, exSegLong]).2.zip
          (dbscan exDist (mkRat 1 2) 1
            (extractLoop exEmbed exWav [exSegShort, exSegLong]).1))
        [] (-1) "")
      = segTexts (extractLoop exEmbed exWav [exSegShort, exSegLong]).2 :=
  (pipeline_blocks_partition exEmbed exDist exWav "a.wav" [exSegShort, exSegLong]
    (fun p => by simp only [exDist]; decide) (by decide) (by decide)).2

set_option maxRecDepth 20000 in
/-- C2 counterexample: the 100-sample segment carrying the text "marcador"
is excluded by the minimum-length guard and its text does not appear in the
final output at all, contradicting the claim that guard-excluded segments
still appear verbatim. -/
theorem pipeline_drops_short_segment :
    (transcribir_con_diarizacion exEmbed exDist exWav "a.wav"
        [exSegShort, exSegLong]).1 = "**Hablante 1:** hola\\n\\n"
  ∧ exSegShort.text = "marcador"
  ∧ containsSub "**Hablante 1:** hola\\n\\n" "marcador" = false := by decide

/-- C3 (amended): the assembly loop scans the labeled valid segments in
order with a current speaker and a text accumulator, closes the block
exactly when the label changes and always flushes the final block: its
output renders the maximal equal-label runs, each block headed
"Hablante (label plus 1)".  Unlabeled segments never reach this loop, so no
"Unknown" pass-through block exists (see the counterexample). -/
theorem assembly_scan_runs (pairs : List (Segment × ℤ))
    (h : ∀ p ∈ pairs, 0 ≤ p.2) :
    buildTranscripcion pairs "" (-1) "" = renderBlocks (runs pairs) := by
  have h' : ∀ p ∈ pairs, p.2 ≠ (-1 : ℤ) := by
    intro p hp
    have := h p hp
    omega
  rw [buildTranscripcion_renders, buildBlocks_eq_runs pairs h',
    String.empty_append]

/-- Witness for C3 at three concrete labeled segments forming two runs. -/
theorem assembly_scan_runs_witness :
    buildTranscripcion exPairs "" (-1) "" = renderBlocks (runs exPairs) :=
  assembly_scan_runs exPairs (by decide)

/-- C3 counterexample: block speaker names use the Spanish "Hablante", not
"Speaker" as the claim states, and no "Unknown" labeled block is ever
produced by this loop. -/
theorem assembly_naming_counterexample :
    buildTranscripcion [(exSegLong, 0)] "" (-1) ""
      = "**Hablante 1:** hola\\n\\n"
  ∧ containsSub "**Hablante 1:** hola\\n\\n" "Speaker" = false
  ∧ containsSub "**Hablante 1:** hola\\n\\n" "Unknown" = false := by decide

/-- Holds of a subprocess behaviour that does not finish within the fixed
600 second timeout of worker.py. -/
def exceedsTimeout : ProcBehavior → Prop
  | .terminates t _ _ _ => TIMEOUT_SECONDS < t
  | .hangs => True

/-- C4 (confirmed): every dispatched job whose subprocess does not exit
within the 600 second timeout is recorded as Failed with the timeout cause,
and in particular is never left with status Processing. -/
theorem dispatcher_timeout_failed (b : ProcBehavior) (h : exceedsTimeout b) :
    processOutcome b = ("Transcription failed: Process timed out.", "Failed")
  ∧ (processOutcome b).2 ≠ "Processing" := by
  have hcomm : communicateWithTimeout b = .timedOut := by
    cases b with
    | terminates t code out err =>
        simp only [exceedsTimeout] at h
        simp [communicateWithTimeout, not_le.mpr h]
    | hangs => rfl
  have hp : processOutcome b
      = ("Transcription failed: Process timed out.", "Failed") := by
    unfold processOutcome
    rw [hcomm]
    decide
  exact ⟨hp, by rw [hp]; decide⟩

/-- Witness for C4 at a subprocess that never terminates. -/
theorem dispatcher_timeout_failed_witness :
    processOutcome ProcBehavior.hangs
      = ("Transcription failed: Process timed out.", "Failed")
  ∧ (processOutcome ProcBehavior.hangs).2 ≠ "Processing" :=
  dispatcher_timeout_failed ProcBehavior.hangs trivial

/-- C5 (confirmed): DBSCAN with eps one half and min_samples 1, run over any
non-empty embedding collection with a distance that is reflexively within
eps (as the cosine distance is, each point being at distance 0 from itself),
assigns every embedded point a concrete label that is non-negative and in
particular never the noise marker -1. -/
theorem clustering_min1_labels_all (embeddings : List (List ℚ))
    (dist : List ℚ → List ℚ → ℚ)
    (hdist : ∀ p ∈ embeddings, dist p p ≤ mkRat 1 2)
    (hne : embeddings ≠ []) :
    (dbscan dist (mkRat 1 2) 1 embeddings).length = embeddings.length
  ∧ ∀ l ∈ dbscan dist (mkRat 1 2) 1 embeddings, 0 ≤ l ∧ l ≠ -1 := by
  refine ⟨dbscan_length _ _ _ _, fun l hl => ?_⟩
  have h0 := dbscan_min1_nonneg dist (mkRat 1 2) embeddings hdist l hl
  exact ⟨h0, by omega⟩

/-- Witness for C5 at a single concrete embedding. -/
theorem clustering_min1_labels_all_witness :
    (dbscan exDist (mkRat 1 2) 1 [[(0 : ℚ)]]).length = 1
  ∧ ∀ l ∈ dbscan exDist (mkRat 1 2) 1 [[(0 : ℚ)]], 0 ≤ l ∧ l ≠ -1 := by
  have h := clustering_min1_labels_all [[(0 : ℚ)]] exDist
    (fun p _ => by simp only [exDist]; decide) (by decide)
  simpa using h

/-- C6 (confirmed): with an empty segment list the pipeline short-circuits
to the terminal no-speech result, whatever the encoder, metric and audio
buffer are (so neither embedding nor clustering can influence the result),
and a dispatcher receiving that text from a clean exit records the job as
Completed, not Failed. -/
theorem no_speech_terminal (embed : List ℚ → Option (List ℚ))
    (dist : List ℚ → List ℚ → ℚ) (wav : List ℚ) (audio_path : String) :
    transcribir_con_diarizacion embed dist wav audio_path []
      = ("No se pudo transcribir el audio (posiblemente silencio).",
         some audio_path)
  ∧ statusFor "No se pudo transcribir el audio (posiblemente silencio)."
      = "Completed"
  ∧ processOutcome (.terminates 1 0
        "No se pudo transcribir el audio (posiblemente silencio)." "")
      = ("No se pudo transcribir el audio (posiblemente silencio).",
         "Completed") := by
  refine ⟨by simp [transcribir_con_diarizacion], by decide, by decide⟩

/-- C7 (amended): device resolution has no requested-mode input and returns
no warning flag; it yields "cuda" with precision "float16" exactly when a
GPU is available and otherwise falls back to "cpu" with "int8", whose
numeric format is narrower than the GPU one. -/
theorem device_resolution_facts :
    DEVICE false = "cpu" ∧ DEVICE true = "cuda"
  ∧ COMPUTE_TYPE false = "int8" ∧ COMPUTE_TYPE true = "float16"
  ∧ formatBits (COMPUTE_TYPE false) < formatBits (COMPUTE_TYPE true) := by
  decide

/-- C7 counterexample: the spec-modelled policy maps requested mode "CPU"
with a GPU available to device "CPU", but the source resolution, which has
no mode input at all, yields "cuda" whenever a GPU is available, so a CPU
request cannot be honored and no warning flag exists. -/
theorem device_mode_counterexample :
    (devicePolicySpec "CPU" true).1 = "CPU"
  ∧ DEVICE true = "cuda"
  ∧ lowerStr (DEVICE true) ≠ lowerStr ((devicePolicySpec "CPU" true).1) := by
  decide

/-- C8 (confirmed): in one process, importing the module a second time
returns the identical cached model instance and triggers no further load:
exactly one underlying load happens for the single key, which is
("base", DEVICE). -/
theorem model_loaded_once (cuda : Bool) :
    (importAudioProcessing cuda (importAudioProcessing cuda ⟨none⟩).2.1).1
      = (importAudioProcessing cuda ⟨none⟩).1
  ∧ (importAudioProcessing cuda ⟨none⟩).2.2 = 1
  ∧ (importAudioProcessing cuda (importAudioProcessing cuda ⟨none⟩).2.1).2.2
      = 0 := by
  cases cuda <;> decide

/-- C9 (amended): loading the store when the file exists with non-empty
content that fails to parse returns the empty store after writing exactly
one timestamped backup, and raises nothing; an empty file however returns
the empty store without any backup (see the counterexample). -/
theorem store_corrupt_backup (parse : String → Option Metadata)
    (c timestamp : String) (hc : c ≠ "") (hp : parse c = none) :
    load_metadata parse (StoreFile.present c) timestamp
      = ([], ["audio_library/metadata.json.bak_" ++ timestamp]) := by
  simp [load_metadata, hc, hp]

/-- Witness for C9 at concrete unparseable non-empty content. -/
theorem store_corrupt_backup_witness :
    load_metadata noParse (StoreFile.present "x") "20240101"
      = ([], ["audio_library/metadata.json.bak_20240101"]) := by
  have h := store_corrupt_backup noParse "x" "20240101" (by decide) rfl
  rw [h]
  decide

/-- C9 counterexample: the empty file cannot be parsed as JSON, yet the load
returns the empty store without writing any backup, because the size check
of line 20 returns before json.load runs. -/
theorem store_empty_no_backup :
    noParse "" = none
  ∧ load_metadata noParse (StoreFile.present "") "20240101" = ([], []) :=
  ⟨rfl, by decide⟩

/-- C10 (confirmed): every invocation of transcribe_cli.py on an existing
audio file, with any model name, exits with the non-zero code 1 and prints
no transcript on standard output, because the import of transcribe_audio
from src.audio_processing fails: that module never binds the name. -/
theorem cli_import_error (modelName transcribeResult : String) :
    runTranscribeCli true modelName transcribeResult = (1, "")
  ∧ (runTranscribeCli true modelName transcribeResult).1 ≠ 0 := by
  constructor
  · unfold runTranscribeCli
    rw [if_neg (by decide)]
  · unfold runTranscribeCli
    rw [if_neg (by decide)]
    decide
